import Mathlib

/-!
Shallow embedding of the libparsepol PReg codec.

The embedding follows the translation unit selected by the claims:
src/src/parser.cpp (second revision, lines 289 onward), src/src/binary.cpp
(second revision, lines 221 onward), the templates of src/inc/binary.hpp and
src/inc/encoding.hpp, and the data model of src/inc/parser.hpp.

Modelling conventions:
  - A byte stream is a `List Nat` of bytes.  Reading functions take the
    remaining stream and return `Option (result, rest)`; `none` stands for a
    thrown `std::runtime_error` or any other exception escaping the call
    (`check_stream`, `check_sym`, `bad_optional_access`, `bad_variant_access`,
    `length_error`), since the codec never catches exceptions.
  - The host is little endian, as assumed throughout the C++ sources
    (`leToNative` is the identity, raw `reinterpret_cast` reads are LE).
  - An in-memory `std::string` holding UTF-8 text is modelled as the list of
    its decoded Unicode code points.  iconv UTF-8 to UTF-16LE conversion fails
    exactly on invalid input, which in this representation means a code point
    that is a surrogate or above 0x10FFFF.
-/

namespace ParsePol

/-- Registry value types, inc/parser.hpp.  Tags 0 to 12 in declaration order,
REG_QWORD_LITTLE_ENDIAN = 11, REG_QWORD_BIG_ENDIAN = 12. -/
inductive PolicyRegType
  | REG_NONE
  | REG_SZ
  | REG_EXPAND_SZ
  | REG_BINARY
  | REG_DWORD_LITTLE_ENDIAN
  | REG_DWORD_BIG_ENDIAN
  | REG_LINK
  | REG_MULTI_SZ
  | REG_RESOURCE_LIST
  | REG_FULL_RESOURCE_DESCRIPTOR
  | REG_RESOURCE_REQUIREMENTS_LIST
  | REG_QWORD_LITTLE_ENDIAN
  | REG_QWORD_BIG_ENDIAN
  deriving DecidableEq, Repr

/-- The integer tag of a type, as produced by `static_cast<uint32_t>`. -/
def tagOf : PolicyRegType → Nat
  | .REG_NONE => 0
  | .REG_SZ => 1
  | .REG_EXPAND_SZ => 2
  | .REG_BINARY => 3
  | .REG_DWORD_LITTLE_ENDIAN => 4
  | .REG_DWORD_BIG_ENDIAN => 5
  | .REG_LINK => 6
  | .REG_MULTI_SZ => 7
  | .REG_RESOURCE_LIST => 8
  | .REG_FULL_RESOURCE_DESCRIPTOR => 9
  | .REG_RESOURCE_REQUIREMENTS_LIST => 10
  | .REG_QWORD_LITTLE_ENDIAN => 11
  | .REG_QWORD_BIG_ENDIAN => 12

/-- PolicyData, the variant over payload shapes from inc/parser.hpp:
std::string, std::vector of std::string, std::vector of uint8_t, uint32_t,
uint64_t.  Strings are lists of code points, blobs are lists of bytes. -/
inductive PolicyData
  | str : List Nat → PolicyData
  | strs : List (List Nat) → PolicyData
  | bin : List Nat → PolicyData
  | u32 : Nat → PolicyData
  | u64 : Nat → PolicyData
  deriving DecidableEq, Repr

/-- PolicyInstruction.  The parsing translation unit of parser.cpp populates
key, value, type and data members; the comparison operators of
inc/parser.hpp lines 64 to 77 touch only type and data. -/
structure PolicyInstruction where
  key : List Nat
  value : List Nat
  type : PolicyRegType
  data : PolicyData
  deriving DecidableEq, Repr

/-- PolicyBody: an ordered sequence of instructions. -/
structure PolicyBody where
  instructions : List PolicyInstruction
  deriving DecidableEq, Repr

/-- PolicyFile: an optional body. -/
structure PolicyFile where
  body : Option PolicyBody
  deriving DecidableEq, Repr

/-- operator== of PolicyInstruction, inc/parser.hpp lines 66 to 69:
`return type == other.type && data == other.data;` -/
def instrEq (a b : PolicyInstruction) : Bool :=
  decide (a.type = b.type) && decide (a.data = b.data)

/-- operator!= of PolicyInstruction, inc/parser.hpp lines 70 to 73:
`return type != other.type && data != other.data;` -/
def instrNeq (a b : PolicyInstruction) : Bool :=
  decide (a.type ≠ b.type) && decide (a.data ≠ b.data)

/-! ### Byte primitives, binary.hpp and binary.cpp -/

/-- bufferToIntegral with T = uint32_t, LE = true: read 4 bytes and interpret
them little endian (leToNative is the identity on the LE host). -/
def bufferToIntegral32LE : List Nat → Option (Nat × List Nat)
  | b0 :: b1 :: b2 :: b3 :: rest =>
      some (b0 + 256 * b1 + 65536 * b2 + 16777216 * b3, rest)
  | _ => none

/-- bufferToIntegral with T = uint32_t, LE = false: read 4 bytes, then
beToNative performs a byteswap, so the first byte is most significant. -/
def bufferToIntegral32BE : List Nat → Option (Nat × List Nat)
  | b0 :: b1 :: b2 :: b3 :: rest =>
      some (b3 + 256 * b2 + 65536 * b1 + 16777216 * b0, rest)
  | _ => none

/-- bufferToIntegral with T = uint64_t, LE = true. -/
def bufferToIntegral64LE : List Nat → Option (Nat × List Nat)
  | b0 :: b1 :: b2 :: b3 :: b4 :: b5 :: b6 :: b7 :: rest =>
      some (b0 + 2 ^ 8 * b1 + 2 ^ 16 * b2 + 2 ^ 24 * b3 + 2 ^ 32 * b4
              + 2 ^ 40 * b5 + 2 ^ 48 * b6 + 2 ^ 56 * b7, rest)
  | _ => none

/-- bufferToIntegral with T = uint64_t, LE = false. -/
def bufferToIntegral64BE : List Nat → Option (Nat × List Nat)
  | b0 :: b1 :: b2 :: b3 :: b4 :: b5 :: b6 :: b7 :: rest =>
      some (b7 + 2 ^ 8 * b6 + 2 ^ 16 * b5 + 2 ^ 24 * b4 + 2 ^ 32 * b3
              + 2 ^ 40 * b2 + 2 ^ 48 * b1 + 2 ^ 56 * b0, rest)
  | _ => none

/-- integralToBuffer with T = uint32_t, LE = true: emit the 4 LE bytes. -/
def integralToBuffer32LE (n : Nat) : List Nat :=
  [n % 256, n / 256 % 256, n / 65536 % 256, n / 16777216 % 256]

/-- integralToBuffer with T = uint32_t, LE = false. -/
def integralToBuffer32BE (n : Nat) : List Nat :=
  [n / 16777216 % 256, n / 65536 % 256, n / 256 % 256, n % 256]

/-- integralToBuffer with T = uint64_t, LE = true. -/
def integralToBuffer64LE (n : Nat) : List Nat :=
  [n % 256, n / 2 ^ 8 % 256, n / 2 ^ 16 % 256, n / 2 ^ 24 % 256,
   n / 2 ^ 32 % 256, n / 2 ^ 40 % 256, n / 2 ^ 48 % 256, n / 2 ^ 56 % 256]

/-- integralToBuffer with T = uint64_t, LE = false. -/
def integralToBuffer64BE (n : Nat) : List Nat :=
  [n / 2 ^ 56 % 256, n / 2 ^ 48 % 256, n / 2 ^ 40 % 256, n / 2 ^ 32 % 256,
   n / 2 ^ 24 % 256, n / 2 ^ 16 % 256, n / 2 ^ 8 % 256, n % 256]

/-- Group a byte list into UTF-16LE code units; a trailing lone byte is
dropped (it never exists on the paths the parser takes). -/
def pairUnits : List Nat → List Nat
  | b0 :: b1 :: rest => (b0 + 256 * b1) :: pairUnits rest
  | _ => []

/-- iconv conversion UTF-16LE to UTF-8, on code units: ordinary units map to
themselves, surrogate pairs combine, unpaired surrogates make iconv fail. -/
def utf16Decode : List Nat → Option (List Nat)
  | [] => some []
  | u :: rest =>
    if u < 0xD800 ∨ 0xDFFF < u then
      (utf16Decode rest).map (fun l => u :: l)
    else if u ≤ 0xDBFF then
      match rest with
      | u2 :: rest2 =>
        if 0xDC00 ≤ u2 ∧ u2 ≤ 0xDFFF then
          (utf16Decode rest2).map
            (fun l => (0x10000 + (u - 0xD800) * 0x400 + (u2 - 0xDC00)) :: l)
        else none
      | [] => none
    else none

/-- iconv conversion UTF-8 to UTF-16LE on the code point representation:
valid scalar values encode (large ones as surrogate pairs), anything else
makes iconv fail. -/
def convert8to16 : List Nat → Option (List Nat)
  | [] => some []
  | c :: rest =>
    if c < 0xD800 ∨ (0xDFFF < c ∧ c < 0x10000) then
      (convert8to16 rest).map (fun l => c :: l)
    else if 0x10000 ≤ c ∧ c ≤ 0x10FFFF then
      (convert8to16 rest).map
        (fun l => (0xD800 + (c - 0x10000) / 0x400)
                    :: (0xDC00 + (c - 0x10000) % 0x400) :: l)
    else none

/-- bufferToString, binary.cpp lines 245 to 269.  Allocates (size / 2) - 1
code units, reads size bytes (the final unit lands in the terminator slot of
the allocation), requires the final unit to be zero, and transcodes the
remaining units.  A size below 2 underflows the size_t subtraction and the
resize throws length_error; an odd size of at least 3 overruns the allocation
by one byte, which the model conservatively treats as a failure as well. -/
def bufferToString (sz : Nat) (s : List Nat) : Option (List Nat × List Nat) :=
  if sz / 2 = 0 then none
  else if sz % 2 = 1 then none
  else if s.length < sz then none
  else
    let units := pairUnits (s.take sz)
    if units.getLast? = some 0 then
      (utf16Decode units.dropLast).map (fun str => (str, s.drop sz))
    else none

/-- bufferToVector, binary.cpp lines 352 to 361: read size raw bytes. -/
def bufferToVector (sz : Nat) (s : List Nat) : Option (List Nat × List Nat) :=
  if s.length < sz then none else some (s.take sz, s.drop sz)

/-- The first zero unit at an index not below the given position, as
`tmp.find(char16_t(0), current)`; `none` is npos. -/
def btsFind (units : List Nat) (current : Nat) : Option Nat :=
  ((units.drop current).findIdx? (fun u => u = 0)).map (fun i => i + current)

/-- The splitting loop of bufferToStrings, binary.cpp lines 312 to 329.  It
runs `while (found != tmp.size() + 1)`; since find never returns tmp.size(),
the loop can only be left through the npos failure.  Fuel bounds the
iteration count; each step moves current past the zero just found. -/
def btsLoop (units : List Nat) : Nat → Nat → Nat → Option (List (List Nat))
  | 0, _, _ => none
  | fuel + 1, current, found =>
    if found = units.length + 1 then some []
    else
      match btsFind units current with
      | none => none
      | some f =>
        match utf16Decode ((units.drop current).take (f - current)) with
        | none => none
        | some piece =>
          (btsLoop units fuel (f + 1) (f + 1)).map (fun l => piece :: l)

/-- bufferToStrings, binary.cpp lines 297 to 332.  `tmp.resize(size - 1)`
allocates size - 1 code units (a size of 0 underflows and throws); reading
size bytes fills the first size bytes of that allocation, the rest stays
zero.  The splitting loop then never reaches its exit condition. -/
def bufferToStrings (sz : Nat) (s : List Nat) :
    Option (List (List Nat) × List Nat) :=
  if sz = 0 then none
  else if s.length < sz then none
  else
    let units := pairUnits (s.take sz ++ List.replicate (sz - 2) 0)
    (btsLoop units (units.length + 2) 0 0).map (fun l => (l, s.drop sz))

/-- stringToBuffer, binary.cpp lines 271 to 295.  After a successful
conversion the function hits `if (tmp.has_value()) return false;` and
returns 0 without writing anything; after a failed conversion it evaluates
`tmp.value()` on the empty optional and throws bad_optional_access.  The
result pairs the emitted bytes with the returned size_t. -/
def stringToBuffer (s : List Nat) : Option (List Nat × Nat) :=
  match convert8to16 s with
  | some _ => some ([], 0)
  | none => none

/-- StringsToBuffer, binary.cpp lines 334 to 350: write every element through
stringToBuffer and accumulate the returned sizes.  An empty list skips the
loop and returns 0 having emitted nothing. -/
def StringsToBuffer (l : List (List Nat)) : Option (List Nat × Nat) :=
  l.foldlM
    (fun acc str =>
      (stringToBuffer str).map (fun bn => (acc.1 ++ bn.1, acc.2 + bn.2)))
    (([] : List Nat), 0)

/-- vectorToBuffer, binary.cpp lines 363 to 368: raw byte passthrough. -/
def vectorToBuffer (v : List Nat) : List Nat := v

/-! ### Grammar engine, parser.cpp second revision -/

/-- The check_sym macro of common.hpp: read one UTF-16LE code unit and
require it to equal the expected character, else throw. -/
def check_sym (c : Nat) : List Nat → Option (List Nat)
  | b0 :: b1 :: rest => if b0 + 256 * b1 = c then some rest else none
  | _ => none

/-- The write_sym macro of common.hpp: emit one character as a UTF-16LE code
unit. -/
def write_sym (c : Nat) : List Nat := [c % 256, c / 256]

/-- parseHeader, parser.cpp lines 440 to 454.  Reads 8 bytes and casts two
32-bit words out of them; the check rejects only when the signature AND the
version both differ from the expected values, because the source uses the
conjunction `signature != normal_signature && version != normal_version`. -/
def parseHeader (s : List Nat) : Option (List Nat) :=
  match s with
  | h0 :: h1 :: h2 :: h3 :: h4 :: h5 :: h6 :: h7 :: rest =>
    let signature := h0 + 256 * h1 + 65536 * h2 + 16777216 * h3
    let version := h4 + 256 * h5 + 65536 * h6 + 16777216 * h7
    if signature ≠ 0x67655250 ∧ version ≠ 1 then none else some rest
  | _ => none

/-- getSize, parser.cpp lines 456 to 459: a 32-bit LE word. -/
def getSize (s : List Nat) : Option (Nat × List Nat) :=
  bufferToIntegral32LE s

/-- The switch of getType, parser.cpp lines 465 to 481: tags 1 to 12 map to
their enumerator; the default branch `return {}` value-initializes the
scoped enum, which is REG_NONE. -/
def policyRegTypeOfNum (num : Nat) : PolicyRegType :=
  if num = 1 then .REG_SZ
  else if num = 2 then .REG_EXPAND_SZ
  else if num = 3 then .REG_BINARY
  else if num = 4 then .REG_DWORD_LITTLE_ENDIAN
  else if num = 5 then .REG_DWORD_BIG_ENDIAN
  else if num = 6 then .REG_LINK
  else if num = 7 then .REG_MULTI_SZ
  else if num = 8 then .REG_RESOURCE_LIST
  else if num = 9 then .REG_FULL_RESOURCE_DESCRIPTOR
  else if num = 10 then .REG_RESOURCE_REQUIREMENTS_LIST
  else if num = 11 then .REG_QWORD_LITTLE_ENDIAN
  else if num = 12 then .REG_QWORD_BIG_ENDIAN
  else .REG_NONE

/-- getType, parser.cpp lines 461 to 484: read a 32-bit LE word and map it
through the switch.  An out-of-range tag is NOT an error here: it comes back
as REG_NONE. -/
def getType (s : List Nat) : Option (PolicyRegType × List Nat) :=
  (bufferToIntegral32LE s).map (fun nr => (policyRegTypeOfNum nr.1, nr.2))

/-- The character loop of getKey, parser.cpp lines 486 to 512.  Characters in
0x20 to 0x7E other than 0x5C are accumulated; at the first other unit the
key must be nonempty and the unit must be 0 or 0x5C, else throw; the
terminating unit is pushed back onto the stream (seekg(-2)). -/
def getKeyAux : List Nat → List Nat → Option (List Nat × List Nat)
  | acc, b0 :: b1 :: rest =>
    let c := b0 + 256 * b1
    if 0x20 ≤ c ∧ c ≤ 0x7E ∧ c ≠ 0x5C then
      getKeyAux (acc ++ [c]) rest
    else if acc = [] ∨ (c ≠ 0 ∧ c ≠ 0x5C) then none
    else some (acc, b0 :: b1 :: rest)
  | _, _ => none

/-- getKey, parser.cpp lines 486 to 512. -/
def getKey (s : List Nat) : Option (List Nat × List Nat) :=
  getKeyAux [] s

/-- The segment loop of getKeypath, parser.cpp lines 514 to 540: read a
segment, then one unit; 0 ends the key path, 0x5C appends a backslash and
continues, anything else throws.  Each iteration consumes at least four
bytes, so a fuel of the stream length plus one never runs out. -/
def getKeypathAux : List Nat → Nat → List Nat → Option (List Nat × List Nat)
  | _, 0, _ => none
  | acc, fuel + 1, s =>
    match getKey s with
    | none => none
    | some (key, s1) =>
      match s1 with
      | b0 :: b1 :: s2 =>
        let sym := b0 + 256 * b1
        if sym = 0 then some (acc ++ key, s2)
        else if sym ≠ 0x5C then none
        else getKeypathAux (acc ++ key ++ [0x5C]) fuel s2
      | _ => none

/-- getKeypath, parser.cpp lines 514 to 540. -/
def getKeypath (s : List Nat) : Option (List Nat × List Nat) :=
  getKeypathAux [] (s.length + 1) s

/-- The character loop of getValue, parser.cpp lines 542 to 572.  Characters
in 0x20 to 0x7E are accumulated, but the 260th such character throws (the
length test fires while the accumulator holds 259).  At the first other
unit, `if (data != 0 || result.empty()) return {};` silently yields the
empty string, even when characters were read and the terminator is not the
NUL16; only a nonempty NUL16-terminated run is returned as read. -/
def getValueAux : List Nat → List Nat → Option (List Nat × List Nat)
  | acc, b0 :: b1 :: rest =>
    let c := b0 + 256 * b1
    if 0x20 ≤ c ∧ c ≤ 0x7E then
      if acc.length = 259 then none
      else getValueAux (acc ++ [c]) rest
    else if c ≠ 0 ∨ acc = [] then some ([], rest)
    else some (acc, rest)
  | _, _ => none

/-- getValue, parser.cpp lines 542 to 572. -/
def getValue (s : List Nat) : Option (List Nat × List Nat) :=
  getValueAux [] s

/-- getData, parser.cpp lines 574 to 605.  REG_NONE throws.  The declared
size is passed to the text, binary and list readers but the fixed-width
integer readers ignore it entirely. -/
def getData (type : PolicyRegType) (sz : Nat) (s : List Nat) :
    Option (PolicyData × List Nat) :=
  match type with
  | .REG_NONE => none
  | .REG_SZ | .REG_EXPAND_SZ | .REG_LINK =>
    (bufferToString sz s).map (fun pr => (.str pr.1, pr.2))
  | .REG_BINARY =>
    (bufferToVector sz s).map (fun pr => (.bin pr.1, pr.2))
  | .REG_DWORD_LITTLE_ENDIAN =>
    (bufferToIntegral32LE s).map (fun pr => (.u32 pr.1, pr.2))
  | .REG_DWORD_BIG_ENDIAN =>
    (bufferToIntegral32BE s).map (fun pr => (.u32 pr.1, pr.2))
  | .REG_MULTI_SZ | .REG_RESOURCE_LIST | .REG_FULL_RESOURCE_DESCRIPTOR
  | .REG_RESOURCE_REQUIREMENTS_LIST =>
    (bufferToStrings sz s).map (fun pr => (.strs pr.1, pr.2))
  | .REG_QWORD_LITTLE_ENDIAN =>
    (bufferToIntegral64LE s).map (fun pr => (.u64 pr.1, pr.2))
  | .REG_QWORD_BIG_ENDIAN =>
    (bufferToIntegral64BE s).map (fun pr => (.u64 pr.1, pr.2))

/-- getInstruction, parser.cpp lines 607 to 635: the bracketed record with
five semicolon separated fields. -/
def getInstruction (s : List Nat) : Option (PolicyInstruction × List Nat) :=
  match check_sym 0x5B s with
  | none => none
  | some s1 =>
    match getKeypath s1 with
    | none => none
    | some (key, s2) =>
      match check_sym 0x3B s2 with
      | none => none
      | some s3 =>
        match getValue s3 with
        | none => none
        | some (value, s4) =>
          match check_sym 0x3B s4 with
          | none => none
          | some s5 =>
            match getType s5 with
            | none => none
            | some (type, s6) =>
              match check_sym 0x3B s6 with
              | none => none
              | some s7 =>
                match getSize s7 with
                | none => none
                | some (dataSize, s8) =>
                  match check_sym 0x3B s8 with
                  | none => none
                  | some s9 =>
                    match getData type dataSize s9 with
                    | none => none
                    | some (data, s10) =>
                      match check_sym 0x5D s10 with
                      | none => none
                      | some s11 =>
                        some (⟨key, value, type, data⟩, s11)

/-- The instruction loop of parse, parser.cpp lines 395 to 410: probe one
byte for end of stream, otherwise step back and read an instruction.  Fuel
is the stream length plus one; every instruction consumes bytes. -/
def parseLoop : Nat → List Nat → Option (List PolicyInstruction)
  | _, [] => some []
  | 0, _ :: _ => none
  | fuel + 1, s =>
    match getInstruction s with
    | none => none
    | some (ins, rest) => (parseLoop fuel rest).map (fun l => ins :: l)

/-- parse, parser.cpp lines 389 to 413: header, then instructions until the
end of the stream; any exception aborts the whole call. -/
def parse (s : List Nat) : Option PolicyFile :=
  match parseHeader s with
  | none => none
  | some rest =>
    (parseLoop (rest.length + 1) rest).map
      (fun l => { body := some { instructions := l } })

/-! ### Writer, parser.cpp second revision -/

/-- The valid_header constant written by writeHeader, parser.cpp 680-683. -/
def writeHeader : List Nat := [0x50, 0x52, 0x65, 0x67, 0x01, 0x00, 0x00, 0x00]

/-- getDataStream, parser.cpp lines 637 to 678: build the payload bytes in a
temporary stream.  A variant mismatch makes std::get throw, and REG_NONE
returns the empty optional (the caller then dereferences it, so the model
propagates the failure). -/
def getDataStream (data : PolicyData) (type : PolicyRegType) :
    Option (List Nat) :=
  match type with
  | .REG_SZ | .REG_EXPAND_SZ | .REG_LINK =>
    match data with
    | .str str => (stringToBuffer str).map (fun bn => bn.1)
    | _ => none
  | .REG_BINARY =>
    match data with
    | .bin v => some (vectorToBuffer v)
    | _ => none
  | .REG_DWORD_LITTLE_ENDIAN =>
    match data with
    | .u32 n => some (integralToBuffer32LE n)
    | _ => none
  | .REG_DWORD_BIG_ENDIAN =>
    match data with
    | .u32 n => some (integralToBuffer32BE n)
    | _ => none
  | .REG_MULTI_SZ | .REG_RESOURCE_LIST | .REG_FULL_RESOURCE_DESCRIPTOR
  | .REG_RESOURCE_REQUIREMENTS_LIST =>
    match data with
    | .strs l => (StringsToBuffer l).map (fun bn => bn.1)
    | _ => none
  | .REG_QWORD_LITTLE_ENDIAN =>
    match data with
    | .u64 n => some (integralToBuffer64LE n)
    | _ => none
  | .REG_QWORD_BIG_ENDIAN =>
    match data with
    | .u64 n => some (integralToBuffer64BE n)
    | _ => none
  | .REG_NONE => none

/-- writeInstruction, parser.cpp lines 685 to 711: bracket, key and value
through stringToBuffer, the LE type tag, the payload length as reported by
tellp on the temporary stream, then the payload bytes. -/
def writeInstruction (ins : PolicyInstruction) : Option (List Nat) :=
  match stringToBuffer ins.key with
  | none => none
  | some kb =>
    match stringToBuffer ins.value with
    | none => none
    | some vb =>
      match getDataStream ins.data ins.type with
      | none => none
      | some ds =>
        some (write_sym 0x5B ++ kb.1
          ++ write_sym 0x3B ++ vb.1
          ++ write_sym 0x3B ++ integralToBuffer32LE (tagOf ins.type)
          ++ write_sym 0x3B ++ integralToBuffer32LE ds.length
          ++ write_sym 0x3B ++ ds
          ++ write_sym 0x5D)

/-- write, parser.cpp lines 415 to 427: succeed emitting nothing when the
document has no body, else the header followed by every instruction. -/
def writeFile (f : PolicyFile) : Option (List Nat) :=
  match f.body with
  | none => some []
  | some b =>
    b.instructions.foldlM
      (fun acc ins => (writeInstruction ins).map (fun bs => acc ++ bs))
      writeHeader

/-! ### Helper definitions and lemmas for the theorems -/

/-- Byte encoding of a list of UTF-16LE code units (two LE bytes each). -/
def encUnits : List Nat → List Nat
  | [] => []
  | c :: cs => c % 256 :: c / 256 :: encUnits cs

lemma bufferToIntegral32LE_enc (t : Nat) (h : t < 2 ^ 32) (r : List Nat) :
    bufferToIntegral32LE (integralToBuffer32LE t ++ r) = some (t, r) := by
  simp only [integralToBuffer32LE, List.cons_append, List.nil_append,
    bufferToIntegral32LE]
  have : t % 256 + 256 * (t / 256 % 256) + 65536 * (t / 65536 % 256)
      + 16777216 * (t / 16777216 % 256) = t := by omega
  rw [this]

set_option maxHeartbeats 1000000 in
lemma policyRegTypeOfNum_invalid (t : Nat) (h : ¬(1 ≤ t ∧ t ≤ 12)) :
    policyRegTypeOfNum t = .REG_NONE := by
  unfold policyRegTypeOfNum
  split_ifs <;> first | rfl | omega

lemma getValueAux_ok (cs : List Nat) : ∀ (acc rest : List Nat),
    (∀ c ∈ cs, 0x20 ≤ c ∧ c ≤ 0x7E) → acc.length + cs.length ≤ 259 →
    getValueAux acc (encUnits cs ++ 0 :: 0 :: rest) = some (acc ++ cs, rest) := by
  induction cs with
  | nil =>
    intro acc rest _ _
    by_cases hacc : acc = [] <;>
      simp [encUnits, getValueAux, hacc]
  | cons c cs ih =>
    intro acc rest hvalid hlen
    have hc := hvalid c (List.mem_cons_self _ _)
    have h1 : c % 256 = c := Nat.mod_eq_of_lt (by omega)
    have h2 : c / 256 = 0 := Nat.div_eq_of_lt (by omega)
    simp only [encUnits, h1, h2, List.cons_append]
    rw [getValueAux]
    simp only [Nat.mul_zero, Nat.add_zero]
    rw [if_pos ⟨hc.1, hc.2⟩, if_neg (by simp at hlen; omega)]
    rw [ih (acc ++ [c]) rest (fun a ha => hvalid a (List.mem_cons_of_mem _ ha))
      (by simp at hlen ⊢; omega)]
    simp

lemma getValueAux_overflow (cs : List Nat) : ∀ (acc tail : List Nat),
    (∀ c ∈ cs, 0x20 ≤ c ∧ c ≤ 0x7E) → acc.length ≤ 259 →
    260 ≤ acc.length + cs.length →
    getValueAux acc (encUnits cs ++ tail) = none := by
  induction cs with
  | nil =>
    intro acc tail _ h1 h2
    simp at h2
    omega
  | cons c cs ih =>
    intro acc tail hvalid hlen hover
    have hc := hvalid c (List.mem_cons_self _ _)
    have h1 : c % 256 = c := Nat.mod_eq_of_lt (by omega)
    have h2 : c / 256 = 0 := Nat.div_eq_of_lt (by omega)
    simp only [encUnits, h1, h2, List.cons_append]
    rw [getValueAux]
    simp only [Nat.mul_zero, Nat.add_zero]
    rw [if_pos ⟨hc.1, hc.2⟩]
    by_cases h259 : acc.length = 259
    · rw [if_pos h259]
    · rw [if_neg h259]
      exact ih (acc ++ [c]) tail
        (fun a ha => hvalid a (List.mem_cons_of_mem _ ha))
        (by simp; omega) (by simp at hover ⊢; omega)

lemma getKeyAux_seg (seg : List Nat) : ∀ (acc : List Nat) (b0 b1 : Nat)
    (t : List Nat),
    (∀ c ∈ seg, 0x20 ≤ c ∧ c ≤ 0x7E ∧ c ≠ 0x5C) →
    ¬(0x20 ≤ b0 + 256 * b1 ∧ b0 + 256 * b1 ≤ 0x7E ∧ b0 + 256 * b1 ≠ 0x5C) →
    getKeyAux acc (encUnits seg ++ b0 :: b1 :: t) =
      if acc ++ seg = [] ∨ (b0 + 256 * b1 ≠ 0 ∧ b0 + 256 * b1 ≠ 0x5C) then none
      else some (acc ++ seg, b0 :: b1 :: t) := by
  induction seg with
  | nil =>
    intro acc b0 b1 t _ hterm
    simp only [encUnits, List.nil_append, List.append_nil]
    rw [getKeyAux]
    rw [if_neg hterm]
  | cons c cs ih =>
    intro acc b0 b1 t hvalid hterm
    have hc := hvalid c (List.mem_cons_self _ _)
    have h1 : c % 256 = c := Nat.mod_eq_of_lt (by omega)
    have h2 : c / 256 = 0 := Nat.div_eq_of_lt (by omega)
    simp only [encUnits, h1, h2, List.cons_append]
    rw [getKeyAux]
    simp only [Nat.mul_zero, Nat.add_zero]
    rw [if_pos ⟨hc.1, hc.2.1, hc.2.2⟩]
    rw [ih (acc ++ [c]) b0 b1 t
      (fun a ha => hvalid a (List.mem_cons_of_mem _ ha)) hterm]
    simp

lemma getKeypathAux_nul (seg : List Nat)
    (hv : ∀ c ∈ seg, 0x20 ≤ c ∧ c ≤ 0x7E ∧ c ≠ 0x5C) (hne : seg ≠ [])
    (acc : List Nat) (fuel : Nat) (t : List Nat) :
    getKeypathAux acc (fuel + 1) (encUnits seg ++ 0 :: 0 :: t) =
      some (acc ++ seg, t) := by
  rw [getKeypathAux]
  rw [show getKey (encUnits seg ++ 0 :: 0 :: t) = some (seg, 0 :: 0 :: t) by
    unfold getKey
    rw [getKeyAux_seg seg [] 0 0 t hv (by omega)]
    simp [hne]]
  simp

lemma getKeypathAux_step (seg : List Nat)
    (hv : ∀ c ∈ seg, 0x20 ≤ c ∧ c ≤ 0x7E ∧ c ≠ 0x5C) (hne : seg ≠ [])
    (acc : List Nat) (fuel : Nat) (t : List Nat) :
    getKeypathAux acc (fuel + 1) (encUnits seg ++ 0x5C :: 0 :: t) =
      getKeypathAux (acc ++ seg ++ [0x5C]) fuel t := by
  rw [getKeypathAux]
  rw [show getKey (encUnits seg ++ 0x5C :: 0 :: t) = some (seg, 0x5C :: 0 :: t)
      by
    unfold getKey
    rw [getKeyAux_seg seg [] 0x5C 0 t hv (by omega)]
    simp [hne]]
  simp

lemma getKeypathAux_emptyseg (acc : List Nat) (fuel : Nat) (b0 b1 : Nat)
    (t : List Nat)
    (hterm : ¬(0x20 ≤ b0 + 256 * b1 ∧ b0 + 256 * b1 ≤ 0x7E
                ∧ b0 + 256 * b1 ≠ 0x5C)) :
    getKeypathAux acc (fuel + 1) (b0 :: b1 :: t) = none := by
  rw [getKeypathAux]
  rw [show getKey (b0 :: b1 :: t) = none by
    unfold getKey
    have := getKeyAux_seg [] [] b0 b1 t (by simp) hterm
    simp only [encUnits, List.nil_append] at this
    rw [this]
    simp]

lemma encUnits_length (cs : List Nat) :
    (encUnits cs).length = 2 * cs.length := by
  induction cs with
  | nil => rfl
  | cons c cs ih => simp [encUnits, ih]; omega

lemma getKeypath_single (seg : List Nat)
    (hv : ∀ c ∈ seg, 0x20 ≤ c ∧ c ≤ 0x7E ∧ c ≠ 0x5C) (hne : seg ≠ [])
    (t : List Nat) :
    getKeypath (encUnits seg ++ 0 :: 0 :: t) = some (seg, t) := by
  unfold getKeypath
  rw [getKeypathAux_nul seg hv hne [] _ t]
  simp

lemma getValue_ok (vcs : List Nat) (hv : ∀ c ∈ vcs, 0x20 ≤ c ∧ c ≤ 0x7E)
    (hlen : vcs.length ≤ 259) (t : List Nat) :
    getValue (encUnits vcs ++ 0 :: 0 :: t) = some (vcs, t) := by
  unfold getValue
  rw [getValueAux_ok vcs [] t hv (by simpa using hlen)]
  simp

/-! ### The claims -/

/-- C1: the claim states that for every byte sequence accepted by parse,
applying write to the parsed document reproduces exactly the original
bytes.  The code violates this: the 40-byte single-REG_SZ example from the
specification parses successfully, but writing the parsed document emits
only 28 bytes in which the key, the value and the string payload are all
absent, because stringToBuffer returns 0 without emitting anything whenever
the conversion succeeds. -/
theorem claim1_byte_exactness :
    parse [0x50, 0x52, 0x65, 0x67, 0x01, 0, 0, 0,
           0x5B, 0, 0x41, 0, 0, 0, 0x3B, 0, 0x42, 0, 0, 0, 0x3B, 0,
           1, 0, 0, 0, 0x3B, 0, 4, 0, 0, 0, 0x3B, 0, 0x58, 0, 0, 0, 0x5D, 0]
      = some { body := some { instructions :=
          [{ key := [0x41], value := [0x42], type := .REG_SZ,
             data := .str [0x58] }] } } ∧
    writeFile { body := some { instructions :=
          [{ key := [0x41], value := [0x42], type := .REG_SZ,
             data := .str [0x58] }] } }
      = some [0x50, 0x52, 0x65, 0x67, 1, 0, 0, 0, 0x5B, 0, 0x3B, 0, 0x3B, 0,
              1, 0, 0, 0, 0x3B, 0, 0, 0, 0, 0, 0x3B, 0, 0x5D, 0] ∧
    ([0x50, 0x52, 0x65, 0x67, 1, 0, 0, 0, 0x5B, 0, 0x3B, 0, 0x3B, 0,
      1, 0, 0, 0, 0x3B, 0, 0, 0, 0, 0, 0x3B, 0, 0x5D, 0] : List Nat)
      ≠ [0x50, 0x52, 0x65, 0x67, 0x01, 0, 0, 0,
         0x5B, 0, 0x41, 0, 0, 0, 0x3B, 0, 0x42, 0, 0, 0, 0x3B, 0,
         1, 0, 0, 0, 0x3B, 0, 4, 0, 0, 0, 0x3B, 0, 0x58, 0, 0, 0, 0x5D, 0] := by
  decide

/-- C2, counterexample: the claim quantifies over every PolicyFile on which
write succeeds, including the bodyless document.  For the bodyless document
write succeeds emitting no bytes, but parsing the empty stream fails, so
parse of write is not the original document. -/
theorem claim2_counterexample :
    writeFile { body := none } = some [] ∧
    parse [] = none ∧
    parse [] ≠ some { body := none } := by
  decide

/-- C2, amended: parse of write is the identity on the document whose body
is present and empty: write emits exactly the 8-byte header and parse maps
it back.  For the bodyless document write succeeds emitting nothing, but
parse of the emitted empty stream fails rather than returning the
document. -/
theorem claim2_roundtrip_amended :
    writeFile { body := some { instructions := [] } } = some writeHeader ∧
    parse writeHeader = some { body := some { instructions := [] } } ∧
    writeFile { body := none } = some [] ∧
    parse [] = none := by
  decide

/-- C3: the claim states that parse rejects every 8-byte header other than
the exact signature PReg followed by version 1; in particular a good
signature with a bad version, and a bad signature with a good version, are
both rejected.  The code joins the two comparisons with a logical AND, so
it rejects only when both words are wrong: a correct signature with version
2 is accepted, a zero signature with the correct version is accepted, and
only a stream with both words wrong is rejected. -/
theorem claim3_header_check :
    parse [0x50, 0x52, 0x65, 0x67, 2, 0, 0, 0]
      = some { body := some { instructions := [] } } ∧
    parse [0, 0, 0, 0, 1, 0, 0, 0]
      = some { body := some { instructions := [] } } ∧
    parse [0, 0, 0, 0, 2, 0, 0, 0] = none := by
  decide

/-- C4, counterexample: the claim states that a REG_DWORD instruction whose
declared size differs from 4 is rejected with BadSize.  The code never
compares the declared size with the width: an instruction declaring size 5
for a REG_DWORD_LITTLE_ENDIAN payload of 4 bytes parses successfully. -/
theorem claim4_counterexample :
    parse [0x50, 0x52, 0x65, 0x67, 0x01, 0, 0, 0,
           0x5B, 0, 0x4B, 0, 0, 0, 0x3B, 0, 0x56, 0, 0, 0, 0x3B, 0,
           4, 0, 0, 0, 0x3B, 0, 5, 0, 0, 0, 0x3B, 0, 1, 0, 0, 0, 0x5D, 0]
      = some { body := some { instructions :=
          [{ key := [0x4B], value := [0x56], type := .REG_DWORD_LITTLE_ENDIAN,
             data := .u32 1 }] } } := by
  decide

/-- C4, amended: getData ignores the declared size entirely for the
fixed-width numeric types; it reads exactly 4 bytes for the DWORD types and
exactly 8 bytes for the QWORD types whatever size was declared, and no size
validation takes place. -/
theorem claim4_size_ignored : ∀ (sz1 sz2 : Nat) (s : List Nat),
    getData .REG_DWORD_LITTLE_ENDIAN sz1 s
      = getData .REG_DWORD_LITTLE_ENDIAN sz2 s ∧
    getData .REG_DWORD_BIG_ENDIAN sz1 s
      = getData .REG_DWORD_BIG_ENDIAN sz2 s ∧
    getData .REG_QWORD_LITTLE_ENDIAN sz1 s
      = getData .REG_QWORD_LITTLE_ENDIAN sz2 s ∧
    getData .REG_QWORD_BIG_ENDIAN sz1 s
      = getData .REG_QWORD_BIG_ENDIAN sz2 s := by
  intro sz1 sz2 s
  exact ⟨rfl, rfl, rfl, rfl⟩

/-- C5: the value field accepts any run of 0 to 259 characters in the range
0x20 to 0x7E followed by NUL16, returning exactly those characters, and a
run of 260 or more such characters makes the parse fail. -/
theorem claim5_value_bounds (cs rest : List Nat)
    (h : ∀ c ∈ cs, 0x20 ≤ c ∧ c ≤ 0x7E) :
    (cs.length ≤ 259 →
      getValue (encUnits cs ++ 0 :: 0 :: rest) = some (cs, rest)) ∧
    (260 ≤ cs.length → getValue (encUnits cs ++ rest) = none) := by
  constructor
  · intro hlen
    exact getValue_ok cs h hlen rest
  · intro hlen
    unfold getValue
    exact getValueAux_overflow cs [] rest h (by simp) (by simpa using hlen)

set_option maxRecDepth 4000 in
/-- C5, witness: a value of exactly 259 characters is accepted and one of
260 characters is rejected. -/
theorem claim5_value_bounds_witness :
    getValue (encUnits (List.replicate 259 0x41) ++ 0 :: 0 :: [])
      = some (List.replicate 259 0x41, []) ∧
    getValue (encUnits (List.replicate 260 0x41) ++ []) = none := by
  refine ⟨(claim5_value_bounds (List.replicate 259 0x41) [] ?_).1 ?_,
          (claim5_value_bounds (List.replicate 260 0x41) [] ?_).2 ?_⟩
  · decide
  · decide
  · decide
  · decide

/-- C6: every key path with an empty segment is rejected: one that begins
with a backslash, one with two consecutive backslashes, one ending in a
backslash right before the NUL16 terminator, and the completely empty key
path all make the parse fail. -/
theorem claim6_empty_segments (seg s : List Nat)
    (hv : ∀ c ∈ seg, 0x20 ≤ c ∧ c ≤ 0x7E ∧ c ≠ 0x5C) (hne : seg ≠ []) :
    getKeypath (0x5C :: 0 :: s) = none ∧
    getKeypath (0 :: 0 :: s) = none ∧
    getKeypath (encUnits seg ++ 0x5C :: 0 :: 0x5C :: 0 :: s) = none ∧
    getKeypath (encUnits seg ++ 0x5C :: 0 :: 0 :: 0 :: s) = none := by
  refine ⟨?_, ?_, ?_, ?_⟩
  · unfold getKeypath
    exact getKeypathAux_emptyseg [] _ 0x5C 0 s (by omega)
  · unfold getKeypath
    exact getKeypathAux_emptyseg [] _ 0 0 s (by omega)
  · unfold getKeypath
    rw [getKeypathAux_step seg hv hne [] _ (0x5C :: 0 :: s)]
    have hL : (encUnits seg ++ 0x5C :: 0 :: 0x5C :: 0 :: s).length
        = ((encUnits seg).length + s.length + 3) + 1 := by
      simp
      omega
    rw [hL]
    exact getKeypathAux_emptyseg _ _ 0x5C 0 s (by omega)
  · unfold getKeypath
    rw [getKeypathAux_step seg hv hne [] _ (0 :: 0 :: s)]
    have hL : (encUnits seg ++ 0x5C :: 0 :: 0 :: 0 :: s).length
        = ((encUnits seg).length + s.length + 3) + 1 := by
      simp
      omega
    rw [hL]
    exact getKeypathAux_emptyseg _ _ 0 0 s (by omega)

/-- C6, witness: the four rejected shapes at concrete inputs, with the
single-character segment A. -/
theorem claim6_empty_segments_witness :
    getKeypath (0x5C :: 0 :: []) = none ∧
    getKeypath (0 :: 0 :: []) = none ∧
    getKeypath (encUnits [0x41] ++ 0x5C :: 0 :: 0x5C :: 0 :: []) = none ∧
    getKeypath (encUnits [0x41] ++ 0x5C :: 0 :: 0 :: 0 :: []) = none :=
  claim6_empty_segments [0x41] [] (by decide) (by decide)

/-- C7: a type tag outside 1 to 12, including 0, makes the parse of the
enclosing instruction fail: getType maps the tag to REG_NONE and getData
throws on REG_NONE, so no instruction with such a tag is ever produced. -/
theorem claim7_bad_type_tag (seg vcs : List Nat) (t sz : Nat)
    (rest : List Nat)
    (hseg : ∀ c ∈ seg, 0x20 ≤ c ∧ c ≤ 0x7E ∧ c ≠ 0x5C) (hsegne : seg ≠ [])
    (hvcs : ∀ c ∈ vcs, 0x20 ≤ c ∧ c ≤ 0x7E) (hvlen : vcs.length ≤ 259)
    (ht32 : t < 2 ^ 32) (htbad : ¬(1 ≤ t ∧ t ≤ 12)) (hsz : sz < 2 ^ 32) :
    getInstruction (0x5B :: 0 :: (encUnits seg ++ 0 :: 0 :: (0x3B :: 0 ::
      (encUnits vcs ++ 0 :: 0 :: (0x3B :: 0 :: (integralToBuffer32LE t ++
      (0x3B :: 0 :: (integralToBuffer32LE sz ++ (0x3B :: 0 :: rest)))))))))
      = none := by
  simp [getInstruction, check_sym, getKeypath_single seg hseg hsegne,
    getValue_ok vcs hvcs hvlen, getType, getSize,
    bufferToIntegral32LE_enc t ht32, bufferToIntegral32LE_enc sz hsz,
    policyRegTypeOfNum_invalid t htbad, getData]

/-- C7, witness: an instruction with key A, empty value, type tag 13 and
declared size 0 fails to parse. -/
theorem claim7_bad_type_tag_witness :
    getInstruction (0x5B :: 0 :: (encUnits [0x41] ++ 0 :: 0 :: (0x3B :: 0 ::
      (encUnits [] ++ 0 :: 0 :: (0x3B :: 0 :: (integralToBuffer32LE 13 ++
      (0x3B :: 0 :: (integralToBuffer32LE 0 ++ (0x3B :: 0 :: [])))))))))
      = none :=
  claim7_bad_type_tag [0x41] [] 13 0 [] (by decide) (by decide) (by decide)
    (by decide) (by decide) (by decide) (by decide)

/-- C8: the claim states that writeString transcodes to UTF-16LE, appends a
terminator, emits all code units and returns the emitted byte count, always
even and at least 2.  The code instead returns 0 and emits nothing whenever
the conversion succeeds, for the empty string and for the string A alike,
because the optional check before the write is inverted. -/
theorem claim8_writeString :
    stringToBuffer [0x41] = some ([], 0) ∧
    stringToBuffer [] = some ([], 0) ∧
    (0 : Nat) ≠ 2 := by
  decide

/-- C9: the claim states that writeStrings emits a single NUL16 code unit
for the empty list and per-element terminators otherwise.  The code skips
the loop for the empty list and returns 0 having emitted no bytes at all,
and for a non-empty list every element passes through the broken
writeString, so nothing is emitted there either. -/
theorem claim9_writeStrings :
    StringsToBuffer [] = some ([], 0) ∧
    StringsToBuffer [[0x61], [0x62]] = some ([], 0) ∧
    ([] : List Nat) ≠ [0, 0] := by
  decide

/-- C10, counterexample: the claim states that equality of instructions
requires equality of key, value, type and data, and that the inequality
operator is the negation of the equality operator.  The code compares only
type and data, so two instructions with different keys compare equal; and
the inequality operator conjoins the two disequalities, so two instructions
with equal type and different data satisfy neither operator. -/
theorem claim10_counterexample :
    instrEq { key := [0x41], value := [], type := .REG_SZ, data := .str [0x78] }
            { key := [0x42], value := [], type := .REG_SZ, data := .str [0x78] }
      = true ∧
    ([0x41] : List Nat) ≠ [0x42] ∧
    instrEq { key := [0x41], value := [], type := .REG_SZ, data := .str [0x78] }
            { key := [0x41], value := [], type := .REG_SZ, data := .str [0x79] }
      = false ∧
    instrNeq { key := [0x41], value := [], type := .REG_SZ, data := .str [0x78] }
             { key := [0x41], value := [], type := .REG_SZ, data := .str [0x79] }
      = false := by
  decide

/-- C10, amended: the equality operator holds exactly when type and data
agree, ignoring key and value, and the inequality operator holds exactly
when type and data both differ, which is not the negation of equality. -/
theorem claim10_equality_amended : ∀ a b : PolicyInstruction,
    (instrEq a b = true ↔ a.type = b.type ∧ a.data = b.data) ∧
    (instrNeq a b = true ↔ a.type ≠ b.type ∧ a.data ≠ b.data) := by
  intro a b
  constructor <;> simp [instrEq, instrNeq]

end ParsePol
